import Mathlib

/-!
# Verification of the @loopback/context injection-resolution core

Shallow embedding of the resolution engine of the `@loopback/context`
inversion-of-control container:

* `binding-filter.ts` — the binding-filter predicate language
  (`filterByKey`, `filterByTag`, `wildcardToRegExp`, `isBindingAddress`);
* `inject.ts` — the resolver strategy set (`resolveAsGetter`,
  `resolveAsSetter`, `resolveAsBinding`, `resolveValuesByFilter`,
  `resolveAsContextView`, `resolveFromConfig`, the `@inject.context`
  resolver, and the target-type assertions);
* `inject-config.ts` — the scoped-configuration resolvers
  (`resolveFromConfig`, `resolveAsViewFromConfig`, `ConfigView`).

External collaborators (`Context`, `ContextView.values`, `ResolutionSession`,
`BindingKey.buildKeyForConfig`, `getDeepProperty`) are not part of the core
source; they are modelled from the specification's external-interface
contract and are marked `Modelled from the spec:` in their doc comments.

JavaScript dynamic values are embedded as the inductive `Value`
(with `vundef` standing for `undefined`); thrown exceptions are embedded
as `Except Err`; the anchored regular expression built by
`wildcardToRegExp` is embedded as a list of tokens together with the
standard declarative matcher `rmatch`.
-/

/-- A JavaScript value as it flows through the resolution engine:
`vundef` is `undefined`; `vobj` is a plain object represented as an
association list of own properties in insertion order. -/
inductive Value where
  | vundef : Value
  | vbool : Bool → Value
  | vnum : Int → Value
  | vstr : String → Value
  | vobj : List (String × Value) → Value

mutual

/-- Structural equality of two JavaScript values (models `===` on the
primitive and plain-object values the engine handles). -/
def Value.beq : Value → Value → Bool
  | .vundef, .vundef => true
  | .vbool a, .vbool c => a == c
  | .vnum a, .vnum c => a == c
  | .vstr a, .vstr c => a == c
  | .vobj fs, .vobj gs => Value.beqFields fs gs
  | _, _ => false

/-- Pointwise structural equality of two object field lists. -/
def Value.beqFields : List (String × Value) → List (String × Value) → Bool
  | [], [] => true
  | (k1, v1) :: fs, (k2, v2) :: gs =>
      k1 == k2 && Value.beq v1 v2 && Value.beqFields fs gs
  | _, _ => false

end

instance : BEq Value := ⟨Value.beq⟩

/-- The reflected design type of an injection target, as reported by the
reflection collaborator (spec §6: `typeOfParameter`/`typeOfProperty`
return a type or absent). The resolver strategies compare it against
`Function`, `Array`, `ContextView` and `Binding`. -/
inductive TargetType where
  | function : TargetType
  | array : TargetType
  | contextView : TargetType
  | binding : TargetType
  | other : String → TargetType
deriving DecidableEq, Repr

/-- Errors thrown by the resolver strategies. `typeMismatch` is the
descriptive `Error` raised when the reflected type does not match the
strategy's required shape; `selectorShape` is the `Error` raised when an
address-only strategy receives a `BindingFilter`; `jsTypeError` is the
implicit JavaScript `TypeError` raised when the code dereferences a
property of `undefined` (e.g. `targetType.name` with `targetType`
absent). -/
inductive Err where
  | typeMismatch : Err
  | selectorShape : Err
  | jsTypeError : Err
deriving DecidableEq, Repr

/-- Binding-creation policy (spec §4.3/§6): governs whether asking for an
absent binding fails, creates it, or always creates a fresh one. -/
inductive BindingCreationPolicy where
  | returnExistingOrFail : BindingCreationPolicy
  | createIfAbsent : BindingCreationPolicy
  | alwaysCreateFresh : BindingCreationPolicy
deriving DecidableEq, Repr

/-- A binding handle (spec §6): read-only `key`, `tagMap` (own
properties of the tag object, in insertion order) and a resolved
`value` standing for what the store's value-provider produces for this
binding. -/
structure Binding where
  key : String
  tagMap : List (String × Value)
  value : Value

/-- `binding.tagNames`: the own property names of the tag map. -/
def Binding.tagNames (b : Binding) : List String :=
  b.tagMap.map Prod.fst

/-- A resolution session (spec §4.2): an ordered stack of bindings
currently being resolved, most recent first. -/
structure ResolutionSession where
  stack : List Binding

/-- `session.currentBinding`: the top of the in-progress binding stack. -/
def ResolutionSession.currentBinding (s : ResolutionSession) : Option Binding :=
  s.stack.head?

/-- Modelled from the spec: `ResolutionSession.fork` (resolution-session.ts
is not part of the core source). `fork(session)` returns an independent
session with the same stack contents and `fork(undefined)` returns
`undefined`; with Lean's value semantics the defensive copy is the value
itself. -/
def ResolutionSession.fork (s : Option ResolutionSession) : Option ResolutionSession :=
  s

/-! ## binding-filter.ts -/

/-- A binding selector (binding-filter.ts `BindingSelector`): either a
binding address (key) or a filter function. -/
inductive BindingSelector where
  | address : String → BindingSelector
  | filter : (Binding → Bool) → BindingSelector

/-- `isBindingAddress` (binding-filter.ts): `typeof bindingSelector !==
'function'`. -/
def isBindingAddress : BindingSelector → Bool
  | .address _ => true
  | .filter _ => false

/-- Models the TypeScript cast `bindingSelector as BindingAddress` that the
address-based strategies perform after dispatch; the `.filter` case is
unreachable on those paths. -/
def BindingSelector.asAddress : BindingSelector → String
  | .address s => s
  | .filter _ => ""

/-- Models the TypeScript cast `bindingSelector as BindingFilter` that the
filter-based strategies perform after dispatch; the `.address` case is
unreachable on those paths. -/
def BindingSelector.asFilter : BindingSelector → Binding → Bool
  | .filter f => f
  | .address _ => fun _ => false

/-- One token of the anchored regular expression built by
`wildcardToRegExp`. The escaping pass makes every non-wildcard character
of the pattern a literal; `*` becomes the starred class `[^.:]*` and `?`
becomes the class `[^.:]`. -/
inductive RTok where
  | lit : Char → RTok
  | cls : RTok
  | clsStar : RTok
deriving DecidableEq, Repr

/-- Whether a character is allowed inside the class `[^.:]`: anything but
the separators `.` and `:`. -/
def sepFree (c : Char) : Bool :=
  c != '.' && c != ':'

/-- `wildcardToRegExp` (binding-filter.ts 106–115), token-level model of
the produced `RegExp`. The escaping replace makes the characters
`- [ ] / { } ( ) + . \ ^ $ | :` literal (and every other non-wildcard
character is literal in a `RegExp` already), then `*` is replaced by
`[^.:]*`, `?` by `[^.:]`, and the result is anchored with `^…$`; so the
regular expression is exactly this token sequence, matched against the
whole key. -/
def wildcardToRegExp (pattern : List Char) : List RTok :=
  pattern.map fun c =>
    if c = '*' then .clsStar else if c = '?' then .cls else .lit c

/-- Anchored matching of a token sequence against a character sequence:
the standard declarative semantics of the `RegExp` built by
`wildcardToRegExp` (`test` with `^…$` and no flags). -/
def rmatch : List RTok → List Char → Bool
  | [], [] => true
  | [], _ :: _ => false
  | .lit _ :: _, [] => false
  | .lit c :: ts, x :: k => c == x && rmatch ts k
  | .cls :: _, [] => false
  | .cls :: ts, x :: k => sepFree x && rmatch ts k
  | .clsStar :: ts, [] => rmatch ts []
  | .clsStar :: ts, x :: k =>
      rmatch ts (x :: k) || (sepFree x && rmatch (.clsStar :: ts) k)
termination_by ts k => (k.length, ts.length)

/-- The argument accepted by `filterByTag` (binding-filter.ts
`BindingTag | RegExp`): a tag-name wildcard string, a precompiled regular
expression (embedded by its `test` function), or a tag name/value map. -/
inductive TagPatternArg where
  | str : String → TagPatternArg
  | regexp : (String → Bool) → TagPatternArg
  | map : List (String × Value) → TagPatternArg

/-- `filterByTag` (binding-filter.ts 63–80). The string/regexp branch
tests the tag names against the pattern; the map branch returns `false`
as soon as one tag name/value pair of the pattern differs from the
binding's tag map and `true` when all pairs match. -/
def filterByTag : TagPatternArg → Binding → Bool
  | .str s => fun b =>
      b.tagNames.any fun t => rmatch (wildcardToRegExp s.data) t.data
  | .regexp r => fun b => b.tagNames.any r
  | .map m => fun b =>
      m.all fun tv => b.tagMap.lookup tv.1 == some tv.2

/-- The argument accepted by `filterByKey` (binding-filter.ts
`keyPattern?: string | RegExp | BindingFilter`): a key wildcard string, a
precompiled regular expression (embedded by its `test` function), a
filter function, or absent (`undefined`). -/
inductive KeyPatternArg where
  | str : String → KeyPatternArg
  | regexp : (String → Bool) → KeyPatternArg
  | func : (Binding → Bool) → KeyPatternArg
  | undef : KeyPatternArg

/-- `filterByKey` (binding-filter.ts 86–98): a string pattern is compiled
with `wildcardToRegExp` and tested against the binding key; a regular
expression is tested against the binding key; a function is returned
as-is; any other argument falls through to `return () => true`, the
filter that accepts every binding (the source has no throwing branch). -/
def filterByKey : KeyPatternArg → Binding → Bool
  | .str p => fun binding => rmatch (wildcardToRegExp p.data) binding.key.data
  | .regexp r => fun binding => r binding.key
  | .func f => f
  | .undef => fun _ => true

/-! ## inject.ts: injection descriptors and collaborators -/

/-- Injection metadata (inject.ts `InjectionMetadata`, spec §9: a small
set of well-known fields of the open metadata map). `optional` and
`configPath` are absent unless a decorator set them. -/
structure InjectionMetadata where
  decorator : String := "@inject"
  optional : Option Bool := none
  configPath : Option String := none
  bindingCreation : Option BindingCreationPolicy := none

/-- An injection descriptor (inject.ts `Injection`). `reflectedType` is
the answer of the reflection collaborator for this injection point
(spec §6: `typeOfParameter`/`typeOfProperty` return a type or absent);
`inspectTargetType` reads it. -/
structure Injection where
  member : Option String := none
  paramIndex : Option Nat := none
  bindingSelector : BindingSelector
  metadata : InjectionMetadata := {}
  reflectedType : Option TargetType := none

/-- `inspectTargetType` (inject.ts 550–567): consult the reflection
collaborator for the design type of the injection target, property first,
then method parameter; absent when reflection reports none. -/
def inspectTargetType (injection : Injection) : Option TargetType :=
  injection.reflectedType

/-- Options passed to the store's value lookups: the resolution session
and the `optional` flag. -/
structure GetOptions where
  session : Option ResolutionSession := none
  optional : Option Bool := none

/-- One operation performed against the store collaborator, recorded so
that frame claims ("this strategy performs no store operation") are
statable. -/
inductive StoreOp where
  | get : String → GetOptions → StoreOp
  | getConfig : String → Option String → GetOptions → StoreOp
  | findOrCreate : String → Option BindingCreationPolicy → StoreOp

/-- Modelled from the spec: the Store collaborator (spec §6), the
`Context` class outside this core. `bindings` is the ordered set of
bindings the store reports; `get`, `getConfigValue` and
`findOrCreateBinding` are its lookup operations, embedded as abstract
function fields. -/
structure Context where
  bindings : List Binding
  get : String → GetOptions → Value
  getConfigValue : String → Option String → GetOptions → Value
  findOrCreateBinding : String → Option BindingCreationPolicy → Binding

/-- Modelled from the spec: `ContextView` (context-view.ts is not part of
the core source) — a live query object holding a filter and the store
reference (spec §3/§4.4). -/
structure ContextView where
  ctx : Context
  filter : Binding → Bool
  opened : Bool := false

/-- Modelled from the spec: `ContextView.values` resolves each matching
binding's value, in the order the store reports bindings (spec §4.4). -/
def ContextView.values (v : ContextView) : List Value :=
  (v.ctx.bindings.filter v.filter).map Binding.value

/-! ## inject.ts: resolver strategies -/

/-- `assertTargetIsGetter` (inject.ts 432–441): raise the descriptive
type error only when the reflected type is present and is not
`Function`; an absent type skips the check. -/
def assertTargetIsGetter (injection : Injection) : Except Err Unit :=
  match inspectTargetType injection with
  | some t => if t ≠ .function then .error .typeMismatch else .ok ()
  | none => .ok ()

/-- The zero-argument closure returned by `resolveAsGetter`
(inject.ts 424–429): it captures the store, the binding selector, the
forked session and the `optional` flag. -/
structure GetterHandle where
  ctx : Context
  selector : BindingSelector
  session : Option ResolutionSession
  optional : Option Bool

/-- Invoking the getter closure: `ctx.get(bindingSelector, {session,
optional})`, together with the store operation this performs. -/
def GetterHandle.invoke (g : GetterHandle) : Value × List StoreOp :=
  (g.ctx.get g.selector.asAddress {session := g.session, optional := g.optional},
   [.get g.selector.asAddress {session := g.session, optional := g.optional}])

/-- `resolveAsGetter` (inject.ts 415–430): assert the target type, fork
the session, and return the getter closure. The second component records
the store operations performed by `resolveAsGetter` itself — none on
either path. -/
def resolveAsGetter (ctx : Context) (injection : Injection)
    (session : Option ResolutionSession) :
    Except Err GetterHandle × List StoreOp :=
  match assertTargetIsGetter injection with
  | .error e => (.error e, [])
  | .ok () =>
      (.ok { ctx := ctx
             selector := injection.bindingSelector
             session := ResolutionSession.fork session
             optional := injection.metadata.optional }, [])

/-- `findOrCreateBindingForInjection` (inject.ts 481–493): delegate to the
store with the descriptor's binding-creation policy. -/
def findOrCreateBindingForInjection (ctx : Context) (injection : Injection) : Binding :=
  ctx.findOrCreateBinding injection.bindingSelector.asAddress
    injection.metadata.bindingCreation

/-- The one-argument closure returned by `resolveAsSetter`
(inject.ts 458–461): on invocation it finds-or-creates the binding for
the injection and sets it to the constant value (`binding.to(value)`).
No resolution session is propagated into the setter. -/
structure SetterHandle where
  ctx : Context
  injection : Injection

/-- Invoking the setter closure with a value: the written binding
(`binding.to(value)`), together with the store operation performed. -/
def SetterHandle.invoke (s : SetterHandle) (value : Value) : Binding × List StoreOp :=
  ({ findOrCreateBindingForInjection s.ctx s.injection with value := value },
   [.findOrCreate s.injection.bindingSelector.asAddress
      s.injection.metadata.bindingCreation])

/-- `resolveAsSetter` (inject.ts 443–462): raise the descriptive type
error when the reflected type is present and is not `Function`; then
reject a filter selector — with a present reflected type this raises the
descriptive `Error`, with an absent one the interpolation
`targetType.name` raises a `TypeError`; otherwise return the setter
closure. -/
def resolveAsSetter (ctx : Context) (injection : Injection) : Except Err SetterHandle :=
  let targetType := inspectTargetType injection
  match targetType with
  | some t =>
      if t ≠ .function then .error .typeMismatch
      else if isBindingAddress injection.bindingSelector then
        .ok { ctx := ctx, injection := injection }
      else .error .selectorShape
  | none =>
      if isBindingAddress injection.bindingSelector then
        .ok { ctx := ctx, injection := injection }
      else .error .jsTypeError

/-- `resolveAsBinding` (inject.ts 464–479): raise the descriptive type
error when the reflected type is present and is not `Binding`; then
reject a filter selector (descriptive `Error` with a present reflected
type, `TypeError` from `targetType.name` with an absent one); otherwise
return the found-or-created binding itself. -/
def resolveAsBinding (ctx : Context) (injection : Injection) : Except Err Binding :=
  let targetType := inspectTargetType injection
  match targetType with
  | some t =>
      if t ≠ .binding then .error .typeMismatch
      else if isBindingAddress injection.bindingSelector then
        .ok (findOrCreateBindingForInjection ctx injection)
      else .error .selectorShape
  | none =>
      if isBindingAddress injection.bindingSelector then
        .ok (findOrCreateBindingForInjection ctx injection)
      else .error .jsTypeError

/-- `assertTargetIsArray` (inject.ts 586–595): unlike the other target
assertions this one has no `targetType &&` guard — with an absent
reflected type the `targetType !== Array` branch is taken and the
interpolation `targetType.name` raises a `TypeError`. -/
def assertTargetIsArray (injection : Injection) : Except Err Unit :=
  match inspectTargetType injection with
  | some t => if t ≠ .array then .error .typeMismatch else .ok ()
  | none => .error .jsTypeError

/-- `resolveValuesByFilter` (inject.ts 575–584): assert the target type
is `Array`, then construct a view over the filter and resolve it to the
matching bindings' values. -/
def resolveValuesByFilter (ctx : Context) (injection : Injection)
    (_session : Option ResolutionSession) : Except Err (List Value) :=
  match assertTargetIsArray injection with
  | .error e => .error e
  | .ok () =>
      .ok (ContextView.values
        { ctx := ctx, filter := injection.bindingSelector.asFilter })

/-- `resolveAsContextView` (inject.ts 622–640): raise the descriptive
type error only when the reflected type is present and is not
`ContextView`; otherwise construct a view over the filter, open it and
return it. -/
def resolveAsContextView (ctx : Context) (injection : Injection)
    (_session : Option ResolutionSession) : Except Err ContextView :=
  match inspectTargetType injection with
  | some t =>
      if t ≠ .contextView then .error .typeMismatch
      else .ok { ctx := ctx, filter := injection.bindingSelector.asFilter,
                 opened := true }
  | none =>
      .ok { ctx := ctx, filter := injection.bindingSelector.asFilter,
            opened := true }

/-- The resolver installed by `inject.context()` (inject.ts 366–368):
`ctx => ctx`. It ignores the descriptor and the session, performs no
store operation (second component), and returns the store itself. -/
def injectContextResolve (ctx : Context) (_injection : Injection)
    (_session : Option ResolutionSession) : Context × List StoreOp :=
  (ctx, [])

/-- `resolveFromConfig` (inject.ts 495–512), installed by
`@inject.config`: with no session or no current binding return
`undefined`; otherwise ask the store for the configuration of the
current binding's key at the descriptor's `configPath`, with the session
and the `optional` flag. -/
def resolveFromConfig (ctx : Context) (injection : Injection)
    (session : Option ResolutionSession) : Value :=
  match session with
  | none => .vundef
  | some s =>
      match s.currentBinding with
      | none => .vundef
      | some binding =>
          ctx.getConfigValue binding.key injection.metadata.configPath
            { session := some s, optional := injection.metadata.optional }

/-! ## inject-config.ts (the scoped `@config` decorators) -/

namespace ConfigInject

/-- `getCurrentBindingKey` (inject-config.ts 87–94):
`session.currentBinding && session.currentBinding.key` — the key of the
current binding, absent when no current binding is set. -/
def getCurrentBindingKey (session : ResolutionSession) : Option String :=
  session.currentBinding.map Binding.key

/-- JavaScript truthiness of the looked-up binding key: the guards
`if (!bindingKey) return undefined` treat both an absent key and the
empty string as falsy. -/
def truthyKey : Option String → Option String
  | none => none
  | some k => if k.isEmpty then none else some k

/-- `resolveFromConfig` (inject-config.ts 96–109), installed by
`@config`: with no current binding (falsy key) return `undefined`;
otherwise ask the store for the configuration of the current binding's
key at the descriptor's `configPath`, with the session and the
`optional` flag. Unlike the `inject.ts` variant, the session parameter
is not optional here. -/
def resolveFromConfig (ctx : Context) (injection : Injection)
    (session : ResolutionSession) : Value :=
  match truthyKey (getCurrentBindingKey session) with
  | none => .vundef
  | some bindingKey =>
      ctx.getConfigValue bindingKey injection.metadata.configPath
        { session := some session, optional := injection.metadata.optional }

/-- Modelled from the spec: `BindingKey.buildKeyForConfig`
(binding-key.ts is not part of the core source) — the derived address of
the configuration sub-binding for a binding key (spec §4.3: the binding
key's configuration sub-key). -/
def buildKeyForConfig (key : String) : String :=
  if key.isEmpty then "$config" else key ++ ":$config"

/-- Splitting a property path on `.` (the semantics of JavaScript
`path.split('.')`): `"a.b"` gives `["a", "b"]`, `""` gives `[""]`. The
second argument accumulates the current segment in reverse. -/
def splitDotAux : List Char → List Char → List String
  | [], acc => [String.mk acc.reverse]
  | c :: rest, acc =>
      if c = '.' then String.mk acc.reverse :: splitDotAux rest []
      else splitDotAux rest (c :: acc)

/-- Modelled from the spec: `getDeepProperty` (value-promise.ts is not
part of the core source) — the null-safe deep-property lookup used by
the scoped-configuration view: the path is split on `.` and followed
segment by segment, returning `undefined` as soon as a segment is
missing or the current value is not an object (spec §4.4). -/
def getDeepProperty (value : Value) (path : String) : Value :=
  (splitDotAux path.data []).foldl
    (fun acc seg =>
      match acc with
      | .vobj fields => (fields.lookup seg).getD .vundef
      | _ => .vundef)
    value

/-- The `ConfigView` subclass of `ContextView` (inject-config.ts
155–170): it adds an optional `configPath`, and its `values` projects
each resolved configuration value through that path when the path is
truthy (a falsy path — absent or empty — returns the raw values). -/
structure ConfigView where
  ctx : Context
  filter : Binding → Bool
  configPath : Option String := none
  opened : Bool := false

/-- `ConfigView#values` (inject-config.ts 163–169): read the raw values
through the parent `ContextView`, then, only for a truthy `configPath`,
project each one through `getDeepProperty`. -/
def ConfigView.values (v : ConfigView) : List Value :=
  let configValues :=
    ContextView.values { ctx := v.ctx, filter := v.filter, opened := v.opened }
  match v.configPath with
  | none => configValues
  | some p =>
      if p.isEmpty then configValues
      else configValues.map fun x => getDeepProperty x p

/-- `resolveAsViewFromConfig` (inject-config.ts 130–153), installed by
`@config.view`: raise the descriptive type error when the reflected type
is present and is not `ContextView`; return `undefined` when the current
binding key is falsy; otherwise construct a `ConfigView` over the filter
selecting exactly the configuration sub-binding of the current binding
key, open it and return it. The source constructor call
`new ConfigView(ctx, binding => …)` passes no third argument, so the
view's `configPath` is `undefined`. -/
def resolveAsViewFromConfig (ctx : Context) (injection : Injection)
    (session : ResolutionSession) : Except Err (Option ConfigView) :=
  match inspectTargetType injection with
  | some t =>
      if t ≠ .contextView then .error .typeMismatch
      else
        match truthyKey (getCurrentBindingKey session) with
        | none => .ok none
        | some bindingKey =>
            .ok (some { ctx := ctx
                        filter := fun binding =>
                          binding.key == buildKeyForConfig bindingKey
                        configPath := none
                        opened := true })
  | none =>
      match truthyKey (getCurrentBindingKey session) with
      | none => .ok none
      | some bindingKey =>
          .ok (some { ctx := ctx
                      filter := fun binding =>
                        binding.key == buildKeyForConfig bindingKey
                      configPath := none
                      opened := true })

end ConfigInject

/-! ## Spec-side wildcard semantics and matcher lemmas -/

/-- The wildcard semantics exactly as the specification words them
(spec §3): the pattern must match the entire key (anchored); `*` stands
for zero or more characters excluding the separators `.` and `:`; `?`
stands for exactly one character excluding `.` and `:`; every other
pattern character stands for itself. -/
def SpecWildcardMatch : List Char → List Char → Prop
  | [], key => key = []
  | c :: p, key =>
      if c = '*' then
        ∃ u v, key = u ++ v ∧ (∀ x ∈ u, x ≠ '.' ∧ x ≠ ':') ∧
          SpecWildcardMatch p v
      else if c = '?' then
        ∃ x v, key = x :: v ∧ x ≠ '.' ∧ x ≠ ':' ∧ SpecWildcardMatch p v
      else
        ∃ v, key = c :: v ∧ SpecWildcardMatch p v

theorem sepFree_iff (c : Char) : sepFree c = true ↔ c ≠ '.' ∧ c ≠ ':' := by
  simp [sepFree]

theorem rmatch_nil_iff (k : List Char) : rmatch [] k = true ↔ k = [] := by
  cases k <;> simp [rmatch]

theorem rmatch_lit_iff (c : Char) (ts : List RTok) (k : List Char) :
    rmatch (.lit c :: ts) k = true ↔
      ∃ v, k = c :: v ∧ rmatch ts v = true := by
  cases k with
  | nil => simp [rmatch]
  | cons x k =>
      simp only [rmatch, Bool.and_eq_true, beq_iff_eq]
      constructor
      · rintro ⟨rfl, h⟩
        exact ⟨k, rfl, h⟩
      · rintro ⟨v, hv, h⟩
        cases hv
        exact ⟨rfl, h⟩

theorem rmatch_cls_iff (ts : List RTok) (k : List Char) :
    rmatch (.cls :: ts) k = true ↔
      ∃ x v, k = x :: v ∧ sepFree x = true ∧ rmatch ts v = true := by
  cases k with
  | nil => simp [rmatch]
  | cons x k =>
      simp only [rmatch, Bool.and_eq_true]
      constructor
      · rintro ⟨hx, h⟩
        exact ⟨x, k, rfl, hx, h⟩
      · rintro ⟨y, v, hv, hy, h⟩
        cases hv
        exact ⟨hy, h⟩

theorem rmatch_clsStar_iff (ts : List RTok) (k : List Char) :
    rmatch (.clsStar :: ts) k = true ↔
      ∃ u v, k = u ++ v ∧ (∀ x ∈ u, sepFree x = true) ∧
        rmatch ts v = true := by
  induction k with
  | nil =>
      simp only [rmatch]
      constructor
      · intro h
        exact ⟨[], [], rfl, by simp, h⟩
      · rintro ⟨u, v, huv, _, h⟩
        obtain ⟨rfl, rfl⟩ := (List.append_eq_nil).mp huv.symm
        exact h
  | cons x k ih =>
      simp only [rmatch, Bool.or_eq_true, Bool.and_eq_true]
      constructor
      · rintro (h | ⟨hx, h⟩)
        · exact ⟨[], x :: k, rfl, by simp, h⟩
        · obtain ⟨u, v, huv, hu, hv⟩ := ih.mp h
          refine ⟨x :: u, v, by rw [huv, List.cons_append], ?_, hv⟩
          intro y hy
          rcases List.mem_cons.mp hy with rfl | hy
          · exact hx
          · exact hu y hy
      · rintro ⟨u, v, huv, hu, hv⟩
        cases u with
        | nil =>
            left
            simpa [huv] using hv
        | cons c u =>
            right
            rw [List.cons_append] at huv
            injection huv with hc hk
            subst hc
            refine ⟨hu x (by simp), ih.mpr ⟨u, v, hk, ?_, hv⟩⟩
            intro y hy
            exact hu y (List.mem_cons_of_mem _ hy)

/-- The compiled token sequence has exactly the wildcard semantics the
specification states: `rmatch` over `wildcardToRegExp` agrees with
`SpecWildcardMatch` on every pattern and key. -/
theorem rmatch_wildcardToRegExp_iff (p k : List Char) :
    rmatch (wildcardToRegExp p) k = true ↔ SpecWildcardMatch p k := by
  induction p generalizing k with
  | nil =>
      simpa [wildcardToRegExp, SpecWildcardMatch] using rmatch_nil_iff k
  | cons c p ih =>
      by_cases hstar : c = '*'
      · subst hstar
        rw [show wildcardToRegExp ('*' :: p) =
              .clsStar :: wildcardToRegExp p by simp [wildcardToRegExp]]
        rw [rmatch_clsStar_iff]
        simp only [SpecWildcardMatch, if_pos rfl]
        constructor
        · rintro ⟨u, v, huv, hu, hv⟩
          exact ⟨u, v, huv, fun x hx => (sepFree_iff x).mp (hu x hx), (ih v).mp hv⟩
        · rintro ⟨u, v, huv, hu, hv⟩
          exact ⟨u, v, huv, fun x hx => (sepFree_iff x).mpr (hu x hx), (ih v).mpr hv⟩
      · by_cases hq : c = '?'
        · subst hq
          rw [show wildcardToRegExp ('?' :: p) =
                .cls :: wildcardToRegExp p by simp [wildcardToRegExp]]
          rw [rmatch_cls_iff]
          simp only [SpecWildcardMatch, if_neg (by decide : ¬('?' = '*')),
            if_pos rfl]
          constructor
          · rintro ⟨x, v, hv, hx, h⟩
            obtain ⟨h1, h2⟩ := (sepFree_iff x).mp hx
            exact ⟨x, v, hv, h1, h2, (ih v).mp h⟩
          · rintro ⟨x, v, hv, h1, h2, h⟩
            exact ⟨x, v, hv, (sepFree_iff x).mpr ⟨h1, h2⟩, (ih v).mpr h⟩
        · rw [show wildcardToRegExp (c :: p) =
                .lit c :: wildcardToRegExp p by
              simp [wildcardToRegExp, hstar, hq]]
          rw [rmatch_lit_iff]
          simp only [SpecWildcardMatch, if_neg hstar, if_neg hq]
          constructor
          · rintro ⟨v, hv, h⟩
            exact ⟨v, hv, (ih v).mp h⟩
          · rintro ⟨v, hv, h⟩
            exact ⟨v, hv, (ih v).mpr h⟩

/-! ## Structural equality of values is lawful -/

theorem Value.beq_iff (a c : Value) : Value.beq a c = true ↔ a = c := by
  refine Value.beq.induct
    (fun a c => Value.beq a c = true ↔ a = c)
    (fun fs gs => Value.beqFields fs gs = true ↔ fs = gs)
    ?_ ?_ ?_ ?_ ?_ ?_ ?_ ?_ ?_ a c
  · simp [Value.beq]
  · intro a c
    simp [Value.beq]
  · intro a c
    simp [Value.beq]
  · intro a c
    simp [Value.beq]
  · intro fs gs ih
    simp [Value.beq, ih]
  · intro t x h1 h2 h3 h4 h5
    cases t <;> cases x <;>
      first
        | exact (h1 rfl rfl).elim
        | exact (h2 _ _ rfl rfl).elim
        | exact (h3 _ _ rfl rfl).elim
        | exact (h4 _ _ rfl rfl).elim
        | exact (h5 _ _ rfl rfl).elim
        | simp [Value.beq]
  · simp [Value.beqFields]
  · intro k1 v1 fs k2 v2 gs ih1 ih2
    simp [Value.beqFields, ih1, ih2, and_assoc]
  · intro t x h1 h2
    cases t with
    | nil =>
        cases x with
        | nil => exact (h1 rfl rfl).elim
        | cons hd tl => simp [Value.beqFields]
    | cons hd tl =>
        cases x with
        | nil => simp [Value.beqFields]
        | cons hd2 tl2 => exact (h2 hd.1 hd.2 tl hd2.1 hd2.2 tl2 rfl rfl).elim

instance : LawfulBEq Value :=
  ⟨fun h => (Value.beq_iff _ _).mp h, fun {a} => (Value.beq_iff a a).mpr rfl⟩

/-! ## Exact-match lemmas for wildcard-free patterns -/

theorem wildcardToRegExp_no_wildcards (p : List Char)
    (h1 : '*' ∉ p) (h2 : '?' ∉ p) :
    wildcardToRegExp p = p.map RTok.lit := by
  induction p with
  | nil => rfl
  | cons c p ih =>
      have hc1 : c ≠ '*' := fun h => h1 (h ▸ List.mem_cons_self c p)
      have hc2 : c ≠ '?' := fun h => h2 (h ▸ List.mem_cons_self c p)
      simp only [wildcardToRegExp, List.map_cons, if_neg hc1, if_neg hc2]
      simp only [wildcardToRegExp] at ih
      rw [ih (fun h => h1 (List.mem_cons_of_mem c h))
            (fun h => h2 (List.mem_cons_of_mem c h))]

theorem rmatch_all_lits_iff (p k : List Char) :
    rmatch (p.map RTok.lit) k = true ↔ k = p := by
  induction p generalizing k with
  | nil => simpa using rmatch_nil_iff k
  | cons c p ih =>
      rw [List.map_cons, rmatch_lit_iff]
      constructor
      · rintro ⟨v, rfl, h⟩
        rw [(ih v).mp h]
      · rintro rfl
        exact ⟨p, rfl, (ih p).mpr rfl⟩

/-! ## Concrete fixtures -/

/-- The sample configuration value `{a: 1}` of the end-to-end scenario. -/
def sampleConfig : Value := .vobj [("a", .vnum 1)]

/-- The configuration sub-binding of `store1`, holding `{a: 1}`. -/
def sampleConfigBinding : Binding :=
  { key := "store1:$config", tagMap := [], value := sampleConfig }

/-- The binding currently being resolved in the sample session. -/
def sampleStore1 : Binding := { key := "store1", tagMap := [], value := .vundef }

/-- A binding whose key contains a regular-expression metacharacter. -/
def sampleBinding : Binding := { key := "a.b$", tagMap := [], value := .vundef }

/-- A sample store holding only the configuration sub-binding of
`store1`; the abstract lookups are inert. -/
def sampleContext : Context :=
  { bindings := [sampleConfigBinding]
    get := fun _ _ => .vundef
    getConfigValue := fun _ _ _ => .vundef
    findOrCreateBinding := fun k _ => { key := k, tagMap := [], value := .vundef } }

/-- A session whose current binding is `store1`. -/
def sampleSession : ResolutionSession := { stack := [sampleStore1] }

/-- A session with no current binding (empty in-progress stack). -/
def emptySession : ResolutionSession := { stack := [] }

/-- A descriptor whose selector is a filter function. -/
def filterInjection : Injection := { bindingSelector := .filter fun _ => true }

/-- A descriptor for `@inject.getter('svc')` on a target whose reflected
type is `Function`. -/
def getterInjection : Injection :=
  { bindingSelector := .address "svc"
    metadata := { decorator := "@inject.getter", optional := some true }
    reflectedType := some .function }

/-- A descriptor produced by the scoped-configuration decorators with
config path `a` (`@inject.config('a')` / `@config('a')`). -/
def configInjection : Injection :=
  { bindingSelector := .address ""
    metadata := { decorator := "@inject.config", optional := some true,
                  configPath := some "a" } }

/-- A descriptor produced by `@config.view('a')` on a `ContextView`-typed
target: non-empty dotted config path in the metadata. -/
def configViewInjection : Injection :=
  { bindingSelector := .address ""
    metadata := { decorator := "@config.view", optional := some true,
                  configPath := some "a" }
    reflectedType := some .contextView }

/-- A descriptor whose reflected type is absent (the reflection
collaborator reports no type), with a filter selector. -/
def untypedFilterInjection : Injection :=
  { bindingSelector := .filter fun _ => true
    reflectedType := none }

/-! ## Claims -/

/-- C4: for every string wildcard pattern `p` and every binding key, the
filter `filterByKey(p)` accepts the key iff the entire key matches the
anchored pattern in which `*` stands for zero or more characters
excluding `.` and `:` and `?` stands for exactly one character excluding
`.` and `:` (so `*` never matches across a `.` or `:` boundary). -/
theorem filterByKey_wildcard_semantics (p : String) (b : Binding) :
    filterByKey (.str p) b = true ↔ SpecWildcardMatch p.data b.key.data :=
  rmatch_wildcardToRegExp_iff p.data b.key.data

/-- C5: for every string key pattern without `*` and `?`, the filter
`filterByKey(p)` accepts exactly the binding whose key equals `p` —
every regular-expression metacharacter in `p` is treated literally. -/
theorem filterByKey_no_wildcards_exact (p : String) (b : Binding)
    (h1 : '*' ∉ p.data) (h2 : '?' ∉ p.data) :
    filterByKey (.str p) b = true ↔ b.key = p := by
  show rmatch (wildcardToRegExp p.data) b.key.data = true ↔ b.key = p
  rw [wildcardToRegExp_no_wildcards p.data h1 h2, rmatch_all_lits_iff]
  constructor
  · intro h
    exact String.ext h
  · intro h
    exact congrArg String.data h

/-- Witness for C5 at the concrete pattern `a.b$` (which contains the
regular-expression metacharacters `.` and `$`) and a binding with that
exact key. -/
theorem filterByKey_no_wildcards_exact_witness :
    ('*' ∉ "a.b$".data) ∧ ('?' ∉ "a.b$".data) ∧
      (filterByKey (.str "a.b$") sampleBinding = true ↔ sampleBinding.key = "a.b$") :=
  ⟨by decide, by decide,
    filterByKey_no_wildcards_exact "a.b$" sampleBinding (by decide) (by decide)⟩

/-- C6: the tag-map filter accepts a binding iff every tag name/value
pair of the pattern map equals the binding's tag map entry for that
name; tags of the binding not mentioned in the pattern do not occur in
the condition, so they cannot affect the result. -/
theorem filterByTag_map_semantics (m : List (String × Value)) (b : Binding) :
    filterByTag (.map m) b = true ↔
      ∀ tv ∈ m, b.tagMap.lookup tv.1 = some tv.2 := by
  show (m.all fun tv => b.tagMap.lookup tv.1 == some tv.2) = true ↔ _
  simp [List.all_eq_true]

/-- C3 counterexample: `filterByKey` applied to an argument that is
neither a string, nor a `RegExp`, nor a function does not fail — it
silently returns a filter, and that filter accepts a concrete binding. -/
theorem filterByKey_malformed_silently_matches :
    filterByKey .undef sampleBinding = true := rfl

/-- C3 amended: for the input that is neither a string, nor a `RegExp`,
nor a function (the absent argument), `filterByKey` raises no error and
silently returns the match-all filter, which accepts every binding. -/
theorem filterByKey_malformed_returns_match_all (b : Binding) :
    filterByKey .undef b = true := rfl

/-- C7: for every injection whose selector is a filter function, the
setter strategy and the raw-binding strategy fail with an error instead
of returning a setter closure or a binding handle. -/
theorem resolveAsSetter_binding_reject_filter (ctx : Context)
    (injection : Injection) (f : Binding → Bool)
    (h : injection.bindingSelector = .filter f) :
    (∃ e, resolveAsSetter ctx injection = .error e) ∧
    (∃ e, resolveAsBinding ctx injection = .error e) := by
  have hb : isBindingAddress injection.bindingSelector = false := by
    rw [h]
    rfl
  constructor
  · cases ht : inspectTargetType injection with
    | none => exact ⟨.jsTypeError, by simp [resolveAsSetter, ht, hb]⟩
    | some t =>
        by_cases hf : t = .function
        · exact ⟨.selectorShape, by simp [resolveAsSetter, ht, hf, hb]⟩
        · exact ⟨.typeMismatch, by simp [resolveAsSetter, ht, hf]⟩
  · cases ht : inspectTargetType injection with
    | none => exact ⟨.jsTypeError, by simp [resolveAsBinding, ht, hb]⟩
    | some t =>
        by_cases hf : t = .binding
        · exact ⟨.selectorShape, by simp [resolveAsBinding, ht, hf, hb]⟩
        · exact ⟨.typeMismatch, by simp [resolveAsBinding, ht, hf]⟩

/-- Witness for C7 at a concrete filter-selector descriptor. -/
theorem resolveAsSetter_binding_reject_filter_witness :
    (∃ e, resolveAsSetter sampleContext filterInjection = .error e) ∧
    (∃ e, resolveAsBinding sampleContext filterInjection = .error e) :=
  resolveAsSetter_binding_reject_filter sampleContext filterInjection
    (fun _ => true) rfl

/-- C8: the scoped-configuration resolvers return `undefined` rather
than raising an error when the session is absent (`@inject.config`
resolver) or when the session has no current binding (both the
`@inject.config` and the `@config` resolver). -/
theorem resolveFromConfig_absent_binding_undefined :
    (∀ ctx injection, resolveFromConfig ctx injection none = Value.vundef) ∧
    (∀ ctx injection s, s.currentBinding = none →
      resolveFromConfig ctx injection (some s) = Value.vundef ∧
      ConfigInject.resolveFromConfig ctx injection s = Value.vundef) := by
  refine ⟨fun ctx injection => rfl, fun ctx injection s h => ⟨?_, ?_⟩⟩
  · simp [resolveFromConfig, h]
  · simp [ConfigInject.resolveFromConfig, ConfigInject.getCurrentBindingKey,
      ConfigInject.truthyKey, h]

/-- Witness for C8: the empty session has no current binding, and both
resolvers return `undefined` on it (and the `@inject.config` resolver
also on the absent session). -/
theorem resolveFromConfig_absent_binding_undefined_witness :
    resolveFromConfig sampleContext configInjection (some emptySession) = Value.vundef ∧
    ConfigInject.resolveFromConfig sampleContext configInjection emptySession = Value.vundef :=
  resolveFromConfig_absent_binding_undefined.2 sampleContext configInjection
    emptySession rfl

/-- C10: the resolver installed by `inject.context()` returns the store
itself, performs no store operation, and is independent of the session. -/
theorem injectContextResolve_returns_store (ctx : Context)
    (injection : Injection) (s s2 : Option ResolutionSession) :
    injectContextResolve ctx injection s = (ctx, []) ∧
    injectContextResolve ctx injection s = injectContextResolve ctx injection s2 :=
  ⟨rfl, rfl⟩

/-- C9: for an address-selector getter injection, `resolveAsGetter`
itself performs no store operation (the recorded operation list is empty
on every path); when the target type is absent or `Function`, it returns
the closure capturing the session forked at creation time and the
descriptor's `optional` flag, and only invoking that closure performs
the single store `get` on the descriptor's address with that forked
session and flag. -/
theorem resolveAsGetter_creation_is_lazy (ctx : Context)
    (injection : Injection) (session : Option ResolutionSession) (key : String)
    (hsel : injection.bindingSelector = .address key) :
    (resolveAsGetter ctx injection session).2 = [] ∧
    (injection.reflectedType = none ∨ injection.reflectedType = some .function →
      (resolveAsGetter ctx injection session).1 =
        .ok { ctx := ctx, selector := injection.bindingSelector,
              session := ResolutionSession.fork session,
              optional := injection.metadata.optional } ∧
      GetterHandle.invoke
          { ctx := ctx, selector := injection.bindingSelector,
            session := ResolutionSession.fork session,
            optional := injection.metadata.optional } =
        (ctx.get key { session := ResolutionSession.fork session,
                       optional := injection.metadata.optional },
         [StoreOp.get key { session := ResolutionSession.fork session,
                            optional := injection.metadata.optional }])) := by
  constructor
  · cases h : assertTargetIsGetter injection with
    | error e => simp [resolveAsGetter, h]
    | ok u => simp [resolveAsGetter, h]
  · intro hty
    have h : assertTargetIsGetter injection = .ok () := by
      rcases hty with hty | hty <;>
        simp [assertTargetIsGetter, inspectTargetType, hty]
    refine ⟨by simp [resolveAsGetter, h], ?_⟩
    simp [GetterHandle.invoke, hsel, BindingSelector.asAddress]

/-- Witness for C9 at a concrete getter descriptor (reflected type
`Function`, address `svc`), the sample store and the sample session. -/
theorem resolveAsGetter_creation_is_lazy_witness :
    (resolveAsGetter sampleContext getterInjection (some sampleSession)).2 = [] ∧
    ((resolveAsGetter sampleContext getterInjection (some sampleSession)).1 =
      .ok { ctx := sampleContext, selector := getterInjection.bindingSelector,
            session := ResolutionSession.fork (some sampleSession),
            optional := getterInjection.metadata.optional } ∧
     GetterHandle.invoke
        { ctx := sampleContext, selector := getterInjection.bindingSelector,
          session := ResolutionSession.fork (some sampleSession),
          optional := getterInjection.metadata.optional } =
       (sampleContext.get "svc"
          { session := ResolutionSession.fork (some sampleSession),
            optional := getterInjection.metadata.optional },
        [StoreOp.get "svc"
          { session := ResolutionSession.fork (some sampleSession),
            optional := getterInjection.metadata.optional }])) :=
  ⟨(resolveAsGetter_creation_is_lazy sampleContext getterInjection
      (some sampleSession) "svc" rfl).1,
   (resolveAsGetter_creation_is_lazy sampleContext getterInjection
      (some sampleSession) "svc" rfl).2 (Or.inr rfl)⟩

/-- C1 (code bug): the scoped-configuration view resolver constructs the
`ConfigView` without forwarding the declared config path, so for the
injection `@config.view('a')` with current binding `store1` and
configuration `{a: 1}` the returned view's `values` yields the raw
configuration object `{a: 1}`, although the projection through the path
`a` (which the claim requires) would yield `1`. -/
theorem resolveAsViewFromConfig_drops_configPath :
    (ConfigInject.resolveAsViewFromConfig sampleContext configViewInjection
        sampleSession).map (Option.map ConfigInject.ConfigView.values) =
      .ok (some [Value.vobj [("a", Value.vnum 1)]]) ∧
    ConfigInject.getDeepProperty (Value.vobj [("a", Value.vnum 1)]) "a" =
      Value.vnum 1 ∧
    Value.vobj [("a", Value.vnum 1)] ≠ Value.vnum 1 :=
  ⟨rfl, rfl, fun h => Value.noConfusion h⟩

/-- C2 (code bug): with an absent reflected type the getter, setter and
view strategies skip the type check (no error from it), but the
array-valued filter strategy does not — `assertTargetIsArray` takes the
mismatch branch and raises the `TypeError` from `targetType.name`, so
`resolveValuesByFilter` fails on a type-unknown injection point. -/
theorem assertTargetIsArray_absent_type_errors :
    assertTargetIsGetter untypedFilterInjection = .ok () ∧
    (resolveAsContextView sampleContext untypedFilterInjection
        (some sampleSession)).isOk = true ∧
    assertTargetIsArray untypedFilterInjection = .error .jsTypeError ∧
    resolveValuesByFilter sampleContext untypedFilterInjection
        (some sampleSession) = .error .jsTypeError :=
  ⟨rfl, rfl, rfl, rfl⟩
